import Mathlib

/-!
Verification development for the IDA IPC client and launcher
(`src/hcli/lib/ida/ipc.py` and `src/hcli/lib/ida/launcher.py`).

The Python code is shallowly embedded: each relevant function becomes a
Lean function over an explicit environment value that supplies the
observations the real code obtains from the operating system (socket
connect results, received byte chunks, the liveness of processes, the
filesystem, poll clocks).  Floats are modelled as rationals, byte strings
as `List Char` or `String`, and `json.loads` as an explicit parse
function parameter (it is an external library call).
-/

/-- Mirrors the `IDAInstance` dataclass of `ipc.py`. -/
structure IDAInstance where
  pid : Nat
  socket_path : String
  idb_path : Option String := none
  idb_name : Option String := none
  has_idb : Bool := false
deriving Repr, DecidableEq

/-- The fields of a decoded JSON response object that the client ever reads
(`status`, `message`, `idb_path`, `idb_name`, `has_idb`); a `none` field
models an absent key, matching `dict.get` semantics. -/
structure RespObj where
  status : Option String := none
  message : Option String := none
  idb_path : Option String := none
  idb_name : Option String := none
  has_idb : Bool := false
deriving Repr, DecidableEq

/-- A decoded JSON document: either an object (restricted to the fields the
client reads) or a non-object value, with an opaque string rendering; where
an error message needs the text of the `AttributeError` that calling `.get`
on a non-object raises, that rendering stands in for it. -/
inductive Json
  | obj : RespObj → Json
  | nonObj : String → Json
deriving Repr, DecidableEq

/-- A request dictionary `{cmd: ..., uri?: ...}`; its JSON encoding is
never inspected by the exchanges, so it stays structured. -/
structure Request where
  cmd : String
  uri : Option String := none
deriving Repr, DecidableEq

/-- The `IDAIPCError` subclasses of `ipc.py`. -/
inductive IPCErrorKind
  | connection
  | timedOut
  | protocol
deriving Repr, DecidableEq

/-- An `IDAIPCError` instance: its subclass and its `str(e)` text. -/
structure IPCError where
  kind : IPCErrorKind
  msg : String
deriving Repr, DecidableEq

/-- What a single exchange can raise: an `IDAIPCError` subclass, or an
exception outside that hierarchy (e.g. `socket.error` from `sendall`,
which no `except` clause of `_send_command_unix` catches). -/
inductive SendRaise
  | ipc : IPCError → SendRaise
  | other : String → SendRaise
deriving Repr, DecidableEq

/-- Outcome of `sock.connect` in `_send_command_unix`: success,
`socket.timeout`, or `socket.error` with message text. -/
inductive ConnectOutcome
  | ok
  | timedOut
  | failed : String → ConnectOutcome
deriving Repr, DecidableEq

/-- One result of `sock.recv(4096)`: a byte chunk (`[]` models the peer
closing the connection) or `socket.timeout`. -/
inductive RecvEvent
  | chunk : List Char → RecvEvent
  | timedOut
deriving Repr, DecidableEq

/-- Environment of one `_send_command_unix` call: the connect outcome, the
outcome of `sendall`, and the successive `recv` results. An exhausted
event list behaves like a read timeout. -/
structure UnixEnv where
  connectRes : ConnectOutcome
  sendOk : Bool
  recvs : List RecvEvent

/-- Result of the unix exchange together with whether `sock.close()` ran
before the function returned or propagated. -/
structure ExchangeResult where
  result : Except SendRaise Json
  socketClosed : Bool

/-- The receive loop of `_send_command_unix` (lines 269-281): accumulate
chunks, return the first successful parse; break on peer close, on read
timeout, or when no further events arrive. Returns the parse (if any)
and the accumulated data. -/
def recvAccum (parse : List Char → Option Json) :
    List RecvEvent → List Char → Option Json × List Char
  | [], acc => (none, acc)
  | .timedOut :: _, acc => (none, acc)
  | .chunk [] :: _, acc => (none, acc)
  | .chunk (c :: cs) :: rest, acc =>
    let acc2 := acc ++ (c :: cs)
    match parse acc2 with
    | some v => (some v, acc2)
    | none => recvAccum parse rest acc2

/-- `IDAIPCClient._send_command_unix`. The `finally: sock.close()` block
wraps only the code after a successful `connect`; the two `raise`
statements in the connect handlers run before it is installed, so those
paths leave the socket unclosed. -/
def send_command_unix (parse : List Char → Option Json) (socket_path : String)
    (env : UnixEnv) (_command : Request) : ExchangeResult :=
  match env.connectRes with
  | .timedOut =>
    ⟨.error (.ipc ⟨.timedOut, "Connection to " ++ socket_path ++ " timed out"⟩), false⟩
  | .failed e =>
    ⟨.error (.ipc ⟨.connection, "Failed to connect to " ++ socket_path ++ ": " ++ e⟩), false⟩
  | .ok =>
    if !env.sendOk then ⟨.error (.other "sendall failed"), true⟩
    else
      match recvAccum parse env.recvs [] with
      | (some v, _) => ⟨.ok v, true⟩
      | (none, data) =>
        if data.isEmpty then ⟨.error (.ipc ⟨.protocol, "No response received"⟩), true⟩
        else
          match parse data with
          | some v => ⟨.ok v, true⟩
          | none => ⟨.error (.ipc ⟨.protocol, "Invalid JSON response"⟩), true⟩

/-- Environment of one `_send_command_windows` call: whether `CreateFileW`,
`WriteFile` and `ReadFile` succeed, and the bytes the server has ready
for the single `ReadFile`. -/
structure WinEnv where
  openOk : Bool
  writeOk : Bool
  readOk : Bool
  response : List Char

/-- `IDAIPCClient._send_command_windows`: a single `ReadFile` into a
4096-byte buffer, so at most `min (length response) 4096` bytes are ever
decoded. -/
def send_command_windows (parse : List Char → Option Json) (pipe_path : String)
    (env : WinEnv) (_command : Request) : Except SendRaise Json :=
  if !env.openOk then .error (.ipc ⟨.connection, "Failed to open pipe: " ++ pipe_path⟩)
  else if !env.writeOk then .error (.ipc ⟨.connection, "Failed to write to pipe"⟩)
  else
    let bytesRead := min env.response.length 4096
    if env.readOk && decide (0 < bytesRead) then
      match parse (env.response.take bytesRead) with
      | some v => .ok v
      | none => .error (.ipc ⟨.protocol, "Invalid JSON response"⟩)
    else .error (.ipc ⟨.protocol, "No response received"⟩)

/-- What `IDAIPCClient._send_command` can produce as seen by its callers:
a decoded response, a raised `IDAIPCError`, or some other raised
exception (payload: its `str`). -/
inductive SendOutcome
  | ok : Json → SendOutcome
  | ipcError : IPCError → SendOutcome
  | otherError : String → SendOutcome
deriving Repr, DecidableEq

/-- Reinterpret an exchange result as the outcome its caller observes. -/
def outcomeOfExchange : Except SendRaise Json → SendOutcome
  | .ok j => .ok j
  | .error (.ipc e) => .ipcError e
  | .error (.other s) => .otherError s

/-- `IDAIPCClient.send_open_link` (lines 220-241), parameterized by the
outcome of the underlying `_send_command` call. `response.get("status")`
on a non-dict raises `AttributeError`, which the generic handler turns
into an `Unexpected error` message; `IDAIPCError` is rendered via
`str(e)`. The function is total: it never propagates an exception. -/
def send_open_link : SendOutcome → Bool × String
  | .ok (.obj r) =>
    if r.status = some "ok" then (true, "OK")
    else (false, r.message.getD "Unknown error")
  | .ok (.nonObj e) => (false, "Unexpected error: " ++ e)
  | .ipcError e => (false, e.msg)
  | .otherError s => (false, "Unexpected error: " ++ s)

/-- `send_open_link` composed with the unix exchange, as when
`_send_command` dispatches to `_send_command_unix`. -/
def send_open_link_unix (parse : List Char → Option Json) (socket_path : String)
    (env : UnixEnv) (uri : String) : Bool × String :=
  send_open_link (outcomeOfExchange
    (send_command_unix parse socket_path env ⟨"open_link", some uri⟩).result)

/-- The attributes defined in the body of `class IDAIPCClient`
(`ipc.py` lines 63-344), in source order. -/
def ida_ipc_client_attrs : List String :=
  ["CONNECT_TIMEOUT", "READ_TIMEOUT", "SOCKET_PREFIX",
   "discover_instances", "_discover_unix", "_discover_windows",
   "_is_process_alive", "query_instance", "ping", "send_open_link",
   "_send_command", "_send_command_unix", "_send_command_windows"]

/-- The attribute that `IDALauncher._wait_for_analysis` (line 363) and
`IDALauncher._wait_for_analysis_on_instance` (line 418) look up on
`IDAIPCClient` on every poll tick of the analysis wait. -/
def analysis_probe_attr : String := "is_analysis_complete"

/-- Python `str.lower` restricted to ASCII (every string compared by the
client here is an ASCII file name). -/
def pyLower (s : String) : String := String.mk (s.data.map Char.toLower)

/-- Python `os.path.basename` for the slash-separated paths produced by
the glob (no trailing slash): the characters after the last slash. -/
def pyBasename (p : String) : String :=
  String.mk (p.data.foldl (fun acc c => if c = '/' then [] else acc ++ [c]) [])

/-- Python `s.replace("ida_ipc_", "")`: delete every non-overlapping
occurrence of the socket name stem, scanning left to right. -/
def removeIdaIpcStem : List Char → List Char
  | 'i' :: 'd' :: 'a' :: '_' :: 'i' :: 'p' :: 'c' :: '_' :: rest => removeIdaIpcStem rest
  | c :: rest => c :: removeIdaIpcStem rest
  | [] => []

/-- Python `int(...)` on the strings that occur as socket-name remainders:
defined exactly on non-empty all-digit strings (`int` also accepts signs,
surrounding whitespace and underscores between digits, which never parse
a socket-name remainder differently here). -/
def pyDigitsToNat (cs : List Char) : Option Nat :=
  if !cs.isEmpty && cs.all Char.isDigit then
    some (cs.foldl (fun n c => 10 * n + (c.toNat - 48)) 0)
  else none

/-- The pid extraction of `_discover_unix` (lines 92-94): basename, delete
every occurrence of the socket name stem, then `int(...)`. -/
def parse_socket_pid (sock_path : String) : Option Nat :=
  pyDigitsToNat (removeIdaIpcStem (pyBasename sock_path).data)

/-- Environment of `_discover_unix`: the glob matches for
`/tmp/ida_ipc_*` in iteration order, the liveness oracle
(`_is_process_alive`, whose `except (OSError, PermissionError)` makes a
permission failure count as dead), and which `os.unlink` calls raise
`OSError` (e.g. the file was already removed concurrently). -/
structure DiscoverEnv where
  files : List String
  alive : Nat → Bool
  unlinkRaises : String → Bool

/-- Loop body of `IDAIPCClient._discover_unix` (lines 89-108), returning
the discovered instances and the socket files actually unlinked.  A pid
that fails to parse raises `ValueError`, caught by the outer handler
(file skipped); an `OSError` from `unlink` is swallowed by the inner
handler (file skipped but kept on disk).  The function is total: no
path propagates an exception. -/
def discover_unix_go (alive : Nat → Bool) (unlinkRaises : String → Bool) :
    List String → List IDAInstance × List String
  | [] => ([], [])
  | f :: rest =>
    let next := discover_unix_go alive unlinkRaises rest
    match parse_socket_pid f with
    | none => next
    | some pid =>
      if alive pid then (⟨pid, f, none, none, false⟩ :: next.1, next.2)
      else if unlinkRaises f then next
      else (next.1, f :: next.2)

/-- `IDAIPCClient._discover_unix` over an explicit environment. -/
def discover_unix (env : DiscoverEnv) : List IDAInstance × List String :=
  discover_unix_go env.alive env.unlinkRaises env.files

/-- Modelled from the words of claim C5 only (for comparison with
`discover_unix`): keep exactly the files whose literal pid suffix - the
part after the single leading "ida_ipc_" stem - parses as an integer and
whose owner is alive. -/
def discover_unix_claimed (env : DiscoverEnv) : List IDAInstance :=
  env.files.filterMap fun f =>
    match (pyBasename f).data with
    | 'i' :: 'd' :: 'a' :: '_' :: 'i' :: 'p' :: 'c' :: '_' :: suffix =>
      (pyDigitsToNat suffix).bind fun pid =>
        if env.alive pid then some ⟨pid, f, none, none, false⟩ else none
    | _ => none

/-- The `LaunchConfig` dataclass of `launcher.py` (lines 62-72), floats as
rationals; defaults are the source defaults. -/
structure LaunchConfig where
  socket_timeout : ℚ := 30
  idb_loaded_timeout : ℚ := 90
  initial_poll_interval : ℚ := 1/10
  max_poll_interval : ℚ := 2
  backoff_multiplier : ℚ := 3/2
  skip_analysis_wait : Bool := false
  analysis_poll_interval : ℚ := 5

/-- The interval update performed after each sleep in the polling loops:
`interval = min(interval * backoff_multiplier, max_poll_interval)`. -/
def nextInterval (cfg : LaunchConfig) (i : ℚ) : ℚ :=
  min (i * cfg.backoff_multiplier) cfg.max_poll_interval

/-- The sleep-interval sequence a backoff loop generates, starting from
`initial_poll_interval`. -/
def intervalSeq (cfg : LaunchConfig) : Nat → ℚ
  | 0 => cfg.initial_poll_interval
  | n + 1 => nextInterval cfg (intervalSeq cfg n)

/-- Observations of one iteration of `_wait_for_socket_responsive`:
whether the wall clock is still within the timeout, the result of
`process.poll()`, and whether the socket exists and answers `ping`. -/
structure SockObs where
  withinTimeout : Bool
  exitCode : Option Int
  socketExists : Bool
  pingOk : Bool

/-- Terminal outcome of `_wait_for_socket_responsive`. -/
inductive SockWaitOutcome
  | responsive
  | exited : Int → SockWaitOutcome
  | startupTimeout
deriving Repr, DecidableEq

/-- Loop of `IDALauncher._wait_for_socket_responsive` (lines 289-313),
also returning the sleep durations it performed, in order. An exhausted
observation list behaves like an expired clock. -/
def wait_for_socket_responsive_go (cfg : LaunchConfig) :
    List SockObs → ℚ → SockWaitOutcome × List ℚ
  | [], _ => (.startupTimeout, [])
  | o :: rest, interval =>
    if o.withinTimeout then
      match o.exitCode with
      | some c => (.exited c, [])
      | none =>
        if o.socketExists && o.pingOk then (.responsive, [])
        else
          let next := wait_for_socket_responsive_go cfg rest (nextInterval cfg interval)
          (next.1, interval :: next.2)
    else (.startupTimeout, [])

/-- `IDALauncher._wait_for_socket_responsive`, starting from
`initial_poll_interval`. -/
def wait_for_socket_responsive (cfg : LaunchConfig) (obs : List SockObs) :
    SockWaitOutcome × List ℚ :=
  wait_for_socket_responsive_go cfg obs cfg.initial_poll_interval

/-- Scan of one discovery round inside `_wait_for_idb_instance`
(lines 392-396): for each instance, query it; return the first whose
info is an object with `has_idb`, a truthy `idb_name`, and a
case-insensitive match with the target. -/
def launcher_idb_scan (query : String → Option IDAInstance) (idb_name : String) :
    List IDAInstance → Option IDAInstance
  | [] => none
  | i :: rest =>
    match query i.socket_path with
    | some info =>
      if info.has_idb && (match info.idb_name with
          | some n => n != ""
          | none => false) then
        if (match info.idb_name with
            | some n => pyLower n == pyLower idb_name
            | none => false) then some info
        else launcher_idb_scan query idb_name rest
      else launcher_idb_scan query idb_name rest
    | none => launcher_idb_scan query idb_name rest

/-- `find_instance_for_idb` (ipc.py lines 347-364): discover, query each
instance in order, return the first with `has_idb`, a truthy `idb_name`
and a case-insensitive name match; `None` when nothing matches. -/
def find_instance_for_idb (query : String → Option IDAInstance) (idb_name : String) :
    List IDAInstance → Option IDAInstance
  | [] => none
  | i :: rest =>
    match query i.socket_path with
    | some info =>
      if info.has_idb then
        if (match info.idb_name with
            | some n => (n != "") && (pyLower n == pyLower idb_name)
            | none => false) then some info
        else find_instance_for_idb query idb_name rest
      else find_instance_for_idb query idb_name rest
    | none => find_instance_for_idb query idb_name rest

/-- Modelled from the words of claim C9 only (for comparison with
`find_instance_for_idb`): the first discovered instance whose queried
`idb_name` equals the requested name after lowercasing both. -/
def find_instance_claimed (query : String → Option IDAInstance) (idb_name : String)
    (l : List IDAInstance) : Option IDAInstance :=
  l.findSome? fun i =>
    (query i.socket_path).bind fun info =>
      match info.idb_name with
      | some n => if pyLower n == pyLower idb_name then some info else none
      | none => none

/-- Observations of one iteration of `_wait_for_idb_instance`: the clock
check, the instances `discover_instances` returned, and the
`query_instance` oracle for this round. -/
structure IdbTick where
  withinTimeout : Bool
  discovered : List IDAInstance
  query : String → Option IDAInstance

/-- Terminal outcome of `_wait_for_idb_instance`. -/
inductive IdbWaitOutcome
  | found : IDAInstance → IdbWaitOutcome
  | startupTimeout
deriving Repr, DecidableEq

/-- Loop of `IDALauncher._wait_for_idb_instance` (lines 381-403), also
returning the sleep durations it performed, in order. -/
def wait_for_idb_instance_go (cfg : LaunchConfig) (idb_name : String) :
    List IdbTick → ℚ → IdbWaitOutcome × List ℚ
  | [], _ => (.startupTimeout, [])
  | t :: rest, interval =>
    if t.withinTimeout then
      match launcher_idb_scan t.query idb_name t.discovered with
      | some info => (.found info, [])
      | none =>
        let next := wait_for_idb_instance_go cfg idb_name rest (nextInterval cfg interval)
        (next.1, interval :: next.2)
    else (.startupTimeout, [])

/-- `IDALauncher._wait_for_idb_instance`, starting from
`initial_poll_interval`. -/
def wait_for_idb_instance (cfg : LaunchConfig) (idb_name : String) (ticks : List IdbTick) :
    IdbWaitOutcome × List ℚ :=
  wait_for_idb_instance_go cfg idb_name ticks cfg.initial_poll_interval

/-- A `subprocess.Popen` handle. `launch_and_wait` never binds the handle
returned by its `subprocess.Popen(...)` call (launcher.py line 218), so
no value of this type ever reaches a `LaunchResult`. -/
structure PopenHandle where
  ospid : Nat
deriving Repr, DecidableEq

/-- The `LaunchResult` dataclass (launcher.py lines 75-82); the source
field `instance` is named `inst` here (`instance` is reserved in Lean). -/
structure LaunchResult where
  success : Bool
  inst : Option IDAInstance := none
  process : Option PopenHandle := none
  error_message : Option String := none
deriving Repr, DecidableEq

/-- Outcome of the `_wait_for_idb_instance` call inside `launch_and_wait`:
an instance, or an `IDAStartupTimeout` whose `str(e)` is carried. -/
inductive WaitIdbOutcome
  | found : IDAInstance → WaitIdbOutcome
  | timedOut : String → WaitIdbOutcome
deriving Repr, DecidableEq

/-- Outcome of the `_wait_for_analysis_on_instance` call inside
`launch_and_wait`: normal return, an `IDALaunchError` (its `str(e)`
carried), or a `KeyboardInterrupt` from the user. -/
inductive AnalysisOutcome
  | completed
  | launchError : String → AnalysisOutcome
  | interrupted
deriving Repr, DecidableEq

/-- Environment of one `launch_and_wait` call: the two `Path` checks on
`idb_path`, the result of `get_ida_binary` (`none` models the
`NoIDAInstallationError` raise), the platform, whether `subprocess.Popen`
succeeds (`false` models `OSError`, with its text), and the outcomes of
the two wait phases. -/
structure LaunchEnv where
  idb_exists : Bool
  idb_is_file : Bool
  ida_binary : Option String
  platform_darwin : Bool
  popen_ok : Bool
  popen_err : String
  wait_idb : WaitIdbOutcome
  analysis : AnalysisOutcome

/-- The result of `launch_and_wait` together with an execution trace:
whether `get_ida_binary` was consulted, the argv handed to
`subprocess.Popen` (`none` when `Popen` was never invoked), and whether a
process was successfully spawned by this call. -/
structure LaunchTrace where
  result : LaunchResult
  binary_resolved : Bool
  cmd : Option (List String)
  spawned : Bool
deriving Repr, DecidableEq

/-- Command construction of `launch_and_wait` (lines 201-212): on macOS
with an `.app` bundle binary, relaunch through `open -a`; otherwise run
the binary directly. Mirrors `ida_bin_str.split("/Contents/MacOS/")[0]`. -/
def build_cmd (darwin : Bool) (ida_bin idb_path : String) : List String :=
  if darwin then
    let parts := ida_bin.splitOn "/Contents/MacOS/"
    if 1 < parts.length then ["open", "-a", parts.headD "", "--args", idb_path]
    else [ida_bin, idb_path]
  else [ida_bin, idb_path]

/-- `IDALauncher.launch_and_wait` (lines 159-251). Notable facts carried
by the translation: the `subprocess.Popen` return value is discarded, so
`LaunchResult.process` stays `none` on every path; a `KeyboardInterrupt`
during the analysis wait is caught and execution falls through to the
success return; the two `idb_path` checks run before `get_ida_binary`
and before any spawn. -/
def launch_and_wait (cfg : LaunchConfig) (env : LaunchEnv) (idb_path : String) :
    LaunchTrace :=
  if !env.idb_exists then
    ⟨⟨false, none, none, some ("IDB file not found: " ++ idb_path)⟩, false, none, false⟩
  else if !env.idb_is_file then
    ⟨⟨false, none, none, some ("IDB path is not a file: " ++ idb_path)⟩, false, none, false⟩
  else
    match env.ida_binary with
    | none =>
      ⟨⟨false, none, none,
        some "No IDA installation configured. Use: hcli ida instance add --auto"⟩,
       true, none, false⟩
    | some ida_bin =>
      let cmd := build_cmd env.platform_darwin ida_bin idb_path
      if !env.popen_ok then
        ⟨⟨false, none, none, some ("Failed to start IDA: " ++ env.popen_err)⟩,
         true, some cmd, false⟩
      else
        match env.wait_idb with
        | .timedOut msg =>
          ⟨⟨false, none, none, some msg⟩, true, some cmd, true⟩
        | .found inst =>
          if cfg.skip_analysis_wait then
            ⟨⟨true, some inst, none, none⟩, true, some cmd, true⟩
          else
            match env.analysis with
            | .completed => ⟨⟨true, some inst, none, none⟩, true, some cmd, true⟩
            | .interrupted => ⟨⟨true, some inst, none, none⟩, true, some cmd, true⟩
            | .launchError msg =>
              ⟨⟨false, none, none, some msg⟩, true, some cmd, true⟩

/-- The double-quote character, written numerically to keep it out of
string-literal position. -/
def dquoteChar : Char := Char.ofNat 34

/-- The backslash character. -/
def bslashChar : Char := Char.ofNat 92

/-- `json.loads` restricted to its behaviour on top-level string literals
without escapes: a document parses iff it is a double quote, then a body
free of quotes and backslashes, then a closing double quote.  On this
sublanguage the model agrees with real JSON; it is one admissible
instantiation of the parse parameter of the exchanges. -/
def parseStringLit : List Char → Option Json
  | [] => none
  | c :: rest =>
    if (c == dquoteChar) && (rest.getLast? == some dquoteChar)
        && !(rest.dropLast.contains dquoteChar)
        && !(rest.dropLast.contains bslashChar) then
      some (.nonObj (String.mk rest.dropLast))
    else none

/-- A 5000-byte string-literal body. -/
def bigBody : List Char := List.replicate 5000 'a'

/-- A well-formed JSON document of 5002 bytes: a quoted 5000-byte string
literal.  Its 4096-byte prefix is not valid JSON (the closing quote is
cut off). -/
def bigLit : List Char := dquoteChar :: (bigBody ++ [dquoteChar])

theorem contains_replicate_false (n : Nat) {a b : Char} (h : ¬ a = b) :
    (List.replicate n b).contains a = false := by
  induction n with
  | zero => rfl
  | succ n ih =>
    rw [List.replicate_succ, List.contains_cons, ih, Bool.or_false]
    simpa using h

theorem parse_bigLit : parseStringLit bigLit = some (Json.nonObj (String.mk bigBody)) := by
  have h1 : bigBody.contains dquoteChar = false :=
    contains_replicate_false 5000 (by decide)
  have h2 : bigBody.contains bslashChar = false :=
    contains_replicate_false 5000 (by decide)
  show parseStringLit (dquoteChar :: (bigBody ++ [dquoteChar])) = _
  simp only [parseStringLit, List.getLast?_concat, List.dropLast_concat, h1, h2]
  simp

theorem bigLit_length : bigLit.length = 5002 := by
  rw [bigLit, List.length_cons, List.length_append, bigBody, List.length_replicate]
  rfl

theorem bigLit_take : bigLit.take 4096 = dquoteChar :: List.replicate 4095 'a' := by
  rw [bigLit, show (4096 : Nat) = 4095 + 1 by norm_num, List.take_succ_cons,
    List.take_append_eq_append_take, bigBody, List.length_replicate, List.take_replicate]
  norm_num

theorem parse_bigLit_take : parseStringLit (bigLit.take 4096) = none := by
  rw [bigLit_take]
  have hlast : (List.replicate 4095 'a').getLast? = some 'a' := by
    rw [show (4095 : Nat) = 4094 + 1 by norm_num, List.replicate_succ',
      List.getLast?_concat]
  have hbeq : ((some 'a' : Option Char) == some dquoteChar) = false := by decide
  simp only [parseStringLit, hlast, hbeq, Bool.false_and, Bool.and_false]
  simp

/-- The default configuration of `LaunchConfig` in the source:
`initial_poll_interval=0.1`, `backoff_multiplier=1.5`,
`max_poll_interval=2.0`. -/
def defaultLaunchConfig : LaunchConfig := {}

theorem wait_sock_sleeps (cfg : LaunchConfig) (obs : List SockObs) :
    ∀ n : Nat,
      (wait_for_socket_responsive_go cfg obs (intervalSeq cfg n)).2
        = (List.range (wait_for_socket_responsive_go cfg obs (intervalSeq cfg n)).2.length).map
            (fun j => intervalSeq cfg (n + j)) := by
  induction obs with
  | nil => intro n; rfl
  | cons o rest ih =>
    intro n
    simp only [wait_for_socket_responsive_go]
    by_cases hw : o.withinTimeout = true
    · rw [if_pos hw]
      cases o.exitCode with
      | some c => rfl
      | none =>
        by_cases hs : (o.socketExists && o.pingOk) = true
        · rw [if_pos hs]
          rfl
        · rw [if_neg hs]
          have hnext : nextInterval cfg (intervalSeq cfg n) = intervalSeq cfg (n + 1) := rfl
          rw [hnext, ih (n + 1)]
          simp only [List.length_cons, List.length_map, List.length_range,
            List.range_succ_eq_map, List.map_cons, List.map_map, Nat.add_zero]
          congr 1
          apply List.map_congr_left
          intro j hj
          simp only [Function.comp_apply]
          congr 1
          omega
    · rw [if_neg hw]
      rfl

theorem wait_idb_sleeps (cfg : LaunchConfig) (name : String) (ticks : List IdbTick) :
    ∀ n : Nat,
      (wait_for_idb_instance_go cfg name ticks (intervalSeq cfg n)).2
        = (List.range (wait_for_idb_instance_go cfg name ticks (intervalSeq cfg n)).2.length).map
            (fun j => intervalSeq cfg (n + j)) := by
  induction ticks with
  | nil => intro n; rfl
  | cons t rest ih =>
    intro n
    simp only [wait_for_idb_instance_go]
    by_cases hw : t.withinTimeout = true
    · rw [if_pos hw]
      cases launcher_idb_scan t.query name t.discovered with
      | some info => rfl
      | none =>
        have hnext : nextInterval cfg (intervalSeq cfg n) = intervalSeq cfg (n + 1) := rfl
        rw [hnext, ih (n + 1)]
        simp only [List.length_cons, List.length_map, List.length_range,
          List.range_succ_eq_map, List.map_cons, List.map_map, Nat.add_zero]
        congr 1
        apply List.map_congr_left
        intro j hj
        simp only [Function.comp_apply]
        congr 1
        omega
    · rw [if_neg hw]
      rfl

theorem intervalSeq_le_max (cfg : LaunchConfig)
    (h : cfg.initial_poll_interval ≤ cfg.max_poll_interval) :
    ∀ n, intervalSeq cfg n ≤ cfg.max_poll_interval := by
  intro n
  cases n with
  | zero => exact h
  | succ n => exact min_le_right _ _

/-- C7: in both backoff polling loops of the launcher (the
socket-responsive wait and the wait-for-IDB-instance phase), the sleep
durations performed are `intervalSeq`, which satisfies
`interval 0 = initial_poll_interval` and
`interval (n+1) = min (interval n * backoff_multiplier) max_poll_interval`;
with the source defaults (0.1, 1.5, 2.0) the interval never exceeds 2. -/
theorem C7_backoff_bounded :
    (∀ cfg obs,
      (wait_for_socket_responsive cfg obs).2
        = (List.range (wait_for_socket_responsive cfg obs).2.length).map (intervalSeq cfg)) ∧
    (∀ cfg name ticks,
      (wait_for_idb_instance cfg name ticks).2
        = (List.range (wait_for_idb_instance cfg name ticks).2.length).map (intervalSeq cfg)) ∧
    (∀ cfg, intervalSeq cfg 0 = cfg.initial_poll_interval) ∧
    (∀ cfg n, intervalSeq cfg (n + 1)
        = min (intervalSeq cfg n * cfg.backoff_multiplier) cfg.max_poll_interval) ∧
    (defaultLaunchConfig.initial_poll_interval = 1/10
      ∧ defaultLaunchConfig.backoff_multiplier = 3/2
      ∧ defaultLaunchConfig.max_poll_interval = 2) ∧
    (∀ n, intervalSeq defaultLaunchConfig n ≤ 2) := by
  refine ⟨?_, ?_, fun _ => rfl, fun _ _ => rfl, ⟨rfl, rfl, rfl⟩, ?_⟩
  · intro cfg obs
    have h := wait_sock_sleeps cfg obs 0
    simp only [Nat.zero_add] at h
    exact h
  · intro cfg name ticks
    have h := wait_idb_sleeps cfg name ticks 0
    simp only [Nat.zero_add] at h
    exact h
  · intro n
    exact intervalSeq_le_max defaultLaunchConfig (show (1/10 : ℚ) ≤ 2 by norm_num) n

/-- C1: the IPC client class defines no `is_analysis_complete` attribute,
although both analysis-wait loops of the launcher call exactly that
attribute on `IDAIPCClient` on every poll tick; the probe therefore
raises `AttributeError` at its first use instead of returning a
`{success, status, message}` record. -/
theorem C1_analysis_probe_missing :
    ida_ipc_client_attrs.contains analysis_probe_attr = false := by decide

/-- Concrete launch environment for claim C2: the IDB checks pass, the
binary resolves, the platform is not macOS (so the spawn is a direct
`subprocess.Popen` of the IDA binary, not a shell-integration launch),
and both wait phases succeed. -/
def c2Env : LaunchEnv :=
  ⟨true, true, some "/opt/ida/ida", false, true, "",
   .found ⟨7, "/tmp/ida_ipc_7", some "/data/a.idb", some "a.idb", true⟩, .completed⟩

/-- C2 counterexample: a run that spawned IDA directly via
`subprocess.Popen` (argv is the binary plus the IDB path, no
shell-integration indirection) still returns `process = none`, because
`launch_and_wait` discards the handle `Popen` returns. -/
theorem C2_counterexample :
    (launch_and_wait defaultLaunchConfig c2Env "/data/a.idb").spawned = true
    ∧ (launch_and_wait defaultLaunchConfig c2Env "/data/a.idb").cmd
        = some ["/opt/ida/ida", "/data/a.idb"]
    ∧ (launch_and_wait defaultLaunchConfig c2Env "/data/a.idb").result.process = none := by
  refine ⟨rfl, by decide, rfl⟩

/-- C2 (amended): `LaunchResult.process` is `none` on every path of
`launch_and_wait` - the handle returned by `subprocess.Popen` is
discarded both for direct spawns and for shell-integration launches. -/
theorem C2_process_always_none (cfg : LaunchConfig) (env : LaunchEnv) (idb_path : String) :
    (launch_and_wait cfg env idb_path).result.process = none := by
  unfold launch_and_wait
  repeat' split
  all_goals rfl

/-- C3 counterexample: when `sock.connect` times out,
`_send_command_unix` raises `IPCTimeoutError` from the `except` handler
before the `try/finally` that closes the socket is entered, so this exit
path propagates with the socket still open. -/
theorem C3_counterexample :
    send_command_unix (fun _ => none) "/tmp/ida_ipc_9" ⟨.timedOut, true, []⟩ ⟨"ping", none⟩
      = ⟨.error (.ipc ⟨.timedOut, "Connection to /tmp/ida_ipc_9 timed out"⟩), false⟩ := by
  show ExchangeResult.mk (.error (.ipc ⟨.timedOut, "Connection to " ++ "/tmp/ida_ipc_9" ++ " timed out"⟩)) false = _
  have h : "Connection to " ++ "/tmp/ida_ipc_9" ++ " timed out"
      = "Connection to /tmp/ida_ipc_9 timed out" := by decide
  rw [h]

/-- C3 (amended): the socket is closed on every exit path reached after a
successful `connect` (success, read timeout, empty response, parse
failure, send failure), and is not closed on the connect-timeout and
connect-failure paths, where the exception propagates before the
`try/finally` block is entered. -/
theorem C3_socket_closed_iff_connected (parse : List Char → Option Json)
    (socket_path : String) (env : UnixEnv) (command : Request) :
    (env.connectRes = .ok →
      (send_command_unix parse socket_path env command).socketClosed = true)
    ∧ (env.connectRes ≠ .ok →
      (send_command_unix parse socket_path env command).socketClosed = false) := by
  obtain ⟨cr, so, rv⟩ := env
  constructor
  · intro h
    cases h
    simp only [send_command_unix]
    repeat' split
    all_goals simp_all
  · intro h
    cases cr with
    | ok => exact absurd rfl h
    | timedOut => rfl
    | failed e => rfl

theorem C3_witness :
    ((send_command_unix (fun _ => none) "/tmp/ida_ipc_2" ⟨.ok, true, []⟩
        ⟨"ping", none⟩).socketClosed = true)
    ∧ ((send_command_unix (fun _ => none) "/tmp/ida_ipc_2" ⟨.failed "refused", true, []⟩
        ⟨"ping", none⟩).socketClosed = false) :=
  ⟨(C3_socket_closed_iff_connected (fun _ => none) "/tmp/ida_ipc_2" ⟨.ok, true, []⟩
      ⟨"ping", none⟩).1 rfl,
   (C3_socket_closed_iff_connected (fun _ => none) "/tmp/ida_ipc_2" ⟨.failed "refused", true, []⟩
      ⟨"ping", none⟩).2 (by decide)⟩

/-- C8: a `KeyboardInterrupt` raised during the analysis-wait phase -
after an instance has been found - is caught by `launch_and_wait`, which
then falls through to the success return carrying that instance. -/
theorem C8_interrupt_reports_success (cfg : LaunchConfig) (env : LaunchEnv)
    (idb_path : String) (inst : IDAInstance)
    (h1 : env.idb_exists = true) (h2 : env.idb_is_file = true)
    (h3 : ∃ b, env.ida_binary = some b) (h4 : env.popen_ok = true)
    (h5 : env.wait_idb = .found inst) (h6 : cfg.skip_analysis_wait = false)
    (h7 : env.analysis = .interrupted) :
    (launch_and_wait cfg env idb_path).result = ⟨true, some inst, none, none⟩ := by
  obtain ⟨b, hb⟩ := h3
  simp [launch_and_wait, h1, h2, hb, h4, h5, h6, h7]

/-- Concrete instance and environment for the C8 witness. -/
def c8Inst : IDAInstance := ⟨3, "/tmp/ida_ipc_3", some "/w/s.idb", some "s.idb", true⟩

def c8Env : LaunchEnv :=
  ⟨true, true, some "/opt/ida/ida", false, true, "", .found c8Inst, .interrupted⟩

theorem C8_witness :
    (launch_and_wait defaultLaunchConfig c8Env "/w/s.idb").result
      = ⟨true, some c8Inst, none, none⟩ :=
  C8_interrupt_reports_success defaultLaunchConfig c8Env "/w/s.idb" c8Inst
    rfl rfl ⟨"/opt/ida/ida", rfl⟩ rfl rfl rfl rfl

/-- C10: when `idb_path` does not exist, or exists but is not a regular
file, `launch_and_wait` returns a failure `LaunchResult` whose message
names the path, without consulting `get_ida_binary`, without invoking
`subprocess.Popen`, and without raising (the model is a total function
into `LaunchTrace`). -/
theorem C10_prevalidation_no_side_effects (cfg : LaunchConfig) (env : LaunchEnv)
    (idb_path : String) :
    (env.idb_exists = false →
      launch_and_wait cfg env idb_path
        = ⟨⟨false, none, none, some ("IDB file not found: " ++ idb_path)⟩,
           false, none, false⟩)
    ∧ (env.idb_exists = true → env.idb_is_file = false →
      launch_and_wait cfg env idb_path
        = ⟨⟨false, none, none, some ("IDB path is not a file: " ++ idb_path)⟩,
           false, none, false⟩) := by
  constructor
  · intro h
    simp [launch_and_wait, h]
  · intro h1 h2
    simp [launch_and_wait, h1, h2]

/-- Launch environments for the C10 witness: a missing path and a
directory path. -/
def c10EnvA : LaunchEnv := ⟨false, false, none, false, false, "", .timedOut "t", .completed⟩

def c10EnvB : LaunchEnv := ⟨true, false, none, false, false, "", .timedOut "t", .completed⟩

theorem C10_witness :
    (launch_and_wait defaultLaunchConfig c10EnvA "/missing/x.idb"
      = ⟨⟨false, none, none, some ("IDB file not found: " ++ "/missing/x.idb")⟩,
         false, none, false⟩)
    ∧ (launch_and_wait defaultLaunchConfig c10EnvB "/etc"
      = ⟨⟨false, none, none, some ("IDB path is not a file: " ++ "/etc")⟩,
         false, none, false⟩) :=
  ⟨(C10_prevalidation_no_side_effects defaultLaunchConfig c10EnvA "/missing/x.idb").1 rfl,
   (C10_prevalidation_no_side_effects defaultLaunchConfig c10EnvB "/etc").2 rfl rfl⟩

/-- Discovery environment for the C5 counterexample: one socket file whose
basename contains the stem twice; every process is alive; no unlink
races. -/
def c5Env : DiscoverEnv := ⟨["/tmp/ida_ipc_ida_ipc_5"], fun _ => true, fun _ => false⟩

/-- C5 counterexample: `basename.replace("ida_ipc_", "")` deletes every
occurrence of the stem, so the file `/tmp/ida_ipc_ida_ipc_5` - whose
literal pid suffix `ida_ipc_5` does not parse as an integer - is
discovered with pid 5, while the claimed behaviour (parse the pid
suffix) yields no instance for it. -/
theorem C5_counterexample :
    (discover_unix c5Env).1 = [⟨5, "/tmp/ida_ipc_ida_ipc_5", none, none, false⟩]
    ∧ discover_unix_claimed c5Env = [] := by
  constructor <;> rfl

/-- C5 (amended): `_discover_unix` returns an instance for exactly those
files whose pid - obtained by deleting every occurrence of `ida_ipc_`
from the basename, which on well-formed names `ida_ipc_<digits>` is the
pid suffix - parses as an integer and whose owner is alive (permission
failures counting as dead); it unlinks exactly the parsed files whose
owner is dead and whose unlink does not raise; an unlink that raises
`OSError` (file already removed concurrently) is swallowed, and the
function is total, so discovery never raises. -/
theorem C5_discovery_characterization (env : DiscoverEnv) :
    (discover_unix env).1
      = env.files.filterMap (fun f =>
          match parse_socket_pid f with
          | some pid => if env.alive pid then some ⟨pid, f, none, none, false⟩ else none
          | none => none)
    ∧ (discover_unix env).2
      = env.files.filter (fun f =>
          match parse_socket_pid f with
          | some pid => !env.alive pid && !env.unlinkRaises f
          | none => false) := by
  obtain ⟨files, alive, raises⟩ := env
  simp only [discover_unix]
  induction files with
  | nil => exact ⟨rfl, rfl⟩
  | cons f rest ih =>
    obtain ⟨ih1, ih2⟩ := ih
    constructor
    · simp only [discover_unix_go, List.filterMap_cons]
      cases hp : parse_socket_pid f with
      | none => simpa [hp] using ih1
      | some pid =>
        by_cases ha : alive pid
        · simp [hp, ha, ih1]
        · by_cases hr : raises f
          · simp [hp, ha, hr, ih1]
          · simp [hp, ha, hr, ih1]
    · simp only [discover_unix_go, List.filter_cons]
      cases hp : parse_socket_pid f with
      | none => simpa [hp] using ih2
      | some pid =>
        by_cases ha : alive pid
        · simp [hp, ha, ih2]
        · by_cases hr : raises f
          · simp [hp, ha, hr, ih2]
          · simp [hp, ha, hr, ih2]

theorem scans_agree (q : String → Option IDAInstance) (name : String) :
    ∀ l, launcher_idb_scan q name l = find_instance_for_idb q name l := by
  intro l
  induction l with
  | nil => rfl
  | cons i rest ih =>
    simp only [launcher_idb_scan, find_instance_for_idb]
    cases q i.socket_path with
    | none => exact ih
    | some info =>
      cases hn : info.idb_name with
      | none => simp [hn, ih]
      | some n =>
        cases hh : info.has_idb with
        | false => simp [hn, hh, ih]
        | true =>
          by_cases hne : (n != "") = true
          · by_cases hl : (pyLower n == pyLower name) = true
            · simp [hn, hh, hne, hl]
            · simp [hn, hh, hne, hl, ih]
          · simp [hn, hh, hne, ih]

theorem find_eq_findSome (q : String → Option IDAInstance) (name : String) :
    ∀ l, find_instance_for_idb q name l
      = l.findSome? (fun i => (q i.socket_path).bind fun info =>
          if info.has_idb && (match info.idb_name with
              | some n => (n != "") && (pyLower n == pyLower name)
              | none => false) then some info else none) := by
  intro l
  induction l with
  | nil => rfl
  | cons i rest ih =>
    simp only [find_instance_for_idb, List.findSome?_cons]
    cases q i.socket_path with
    | none => simpa using ih
    | some info =>
      cases hn : info.idb_name with
      | none => simp [hn, ih]
      | some n =>
        cases hh : info.has_idb with
        | false => simp [hn, hh, ih]
        | true =>
          by_cases hne : (n != "") = true
          · by_cases hl : (pyLower n == pyLower name) = true
            · simp [hn, hh, hne, hl]
            · simp [hn, hh, hne, hl, ih]
          · simp [hn, hh, hne, ih]

theorem find_lower_invariant (q : String → Option IDAInstance) (n1 n2 : String)
    (h : pyLower n1 = pyLower n2) :
    ∀ l, find_instance_for_idb q n1 l = find_instance_for_idb q n2 l := by
  intro l
  induction l with
  | nil => rfl
  | cons i rest ih => simp only [find_instance_for_idb, h, ih]

/-- C9 (amended): the launcher's per-round scan and
`find_instance_for_idb` use the identical comparison;
`find_instance_for_idb` returns the first discovered instance, in
discovery order, whose query succeeds with `has_idb` set and a
non-empty `idb_name` equal to the requested name after lowercasing both
(`none` when nothing matches); and the result is invariant under
changing the case of the requested name. -/
theorem C9_match_characterization :
    (∀ q name l, launcher_idb_scan q name l = find_instance_for_idb q name l)
    ∧ (∀ q name l, find_instance_for_idb q name l
        = l.findSome? (fun i => (q i.socket_path).bind fun info =>
            if info.has_idb && (match info.idb_name with
                | some n => (n != "") && (pyLower n == pyLower name)
                | none => false) then some info else none))
    ∧ (∀ q n1 n2 l, pyLower n1 = pyLower n2 →
        find_instance_for_idb q n1 l = find_instance_for_idb q n2 l) :=
  ⟨fun q name l => scans_agree q name l,
   fun q name l => find_eq_findSome q name l,
   fun q n1 n2 l h => find_lower_invariant q n1 n2 h l⟩

/-- The queried info for the C9 counterexample: the name matches the
request case-insensitively but `has_idb` is false. -/
def c9Info : IDAInstance := ⟨1, "/tmp/ida_ipc_1", some "/w/sample.idb", some "sample.idb", false⟩

def c9Query : String → Option IDAInstance := fun _ => some c9Info

def c9Discovered : List IDAInstance := [⟨1, "/tmp/ida_ipc_1", none, none, false⟩]

/-- C9 counterexample: a queried instance whose `idb_name` equals the
requested name after lowercasing both, but whose `has_idb` is false, is
skipped by `find_instance_for_idb` (it also requires `has_idb` and a
non-empty name), while the claimed behaviour - matching on the
case-insensitive name comparison alone - would return it. -/
theorem C9_counterexample :
    find_instance_for_idb c9Query "Sample.idb" c9Discovered = none
    ∧ find_instance_claimed c9Query "Sample.idb" c9Discovered = some c9Info := by
  constructor <;> decide

theorem C9_witness :
    find_instance_for_idb
      (fun _ => some ⟨2, "/tmp/ida_ipc_2", some "/w/b.idb", some "Sample.idb", true⟩)
      "sample.idb" [⟨2, "/tmp/ida_ipc_2", none, none, false⟩]
    = find_instance_for_idb
      (fun _ => some ⟨2, "/tmp/ida_ipc_2", some "/w/b.idb", some "Sample.idb", true⟩)
      "SAMPLE.IDB" [⟨2, "/tmp/ida_ipc_2", none, none, false⟩] :=
  C9_match_characterization.2.2
    (fun _ => some ⟨2, "/tmp/ida_ipc_2", some "/w/b.idb", some "Sample.idb", true⟩)
    "sample.idb" "SAMPLE.IDB" [⟨2, "/tmp/ida_ipc_2", none, none, false⟩] (by decide)

/-- C6: `send_open_link` returns `(true, "OK")` exactly when the decoded
response is an object with status `ok`; otherwise it returns `false`
paired with the server `message` field (default `Unknown error`), the
`str` of a raised `IDAIPCError`, or an `Unexpected error` rendering of
any other exception - and it never raises (the model is total).  In
particular, a peer that closes without sending data yields
`(false, "No response received")` through the unix exchange. -/
theorem C6_send_open_link_contract :
    (∀ o, send_open_link o = (true, "OK")
        ↔ ∃ r, o = .ok (.obj r) ∧ r.status = some "ok")
    ∧ (∀ r, r.status ≠ some "ok" →
        send_open_link (.ok (.obj r)) = (false, r.message.getD "Unknown error"))
    ∧ (∀ e, send_open_link (.ipcError e) = (false, e.msg))
    ∧ (∀ s, send_open_link (.otherError s) = (false, "Unexpected error: " ++ s))
    ∧ (∀ parse socket_path env uri, env.connectRes = .ok → env.sendOk = true →
        env.recvs = [.chunk []] →
        send_open_link_unix parse socket_path env uri
          = (false, "No response received")) := by
  refine ⟨?_, ?_, fun e => rfl, fun s => rfl, ?_⟩
  · intro o
    constructor
    · intro h
      cases o with
      | ok j =>
        cases j with
        | obj r =>
          by_cases hs : r.status = some "ok"
          · exact ⟨r, rfl, hs⟩
          · simp [send_open_link, hs] at h
        | nonObj e => simp [send_open_link] at h
      | ipcError e => simp [send_open_link] at h
      | otherError s => simp [send_open_link] at h
    · rintro ⟨r, rfl, hs⟩
      simp [send_open_link, hs]
  · intro r h
    simp [send_open_link, h]
  · intro parse socket_path env uri h1 h2 h3
    obtain ⟨cr, so, rv⟩ := env
    cases h1
    cases h2
    cases h3
    rfl

theorem C6_witness :
    (send_open_link (.ok (.obj ⟨some "error", some "bad uri", none, none, false⟩))
      = (false, "bad uri"))
    ∧ (send_open_link_unix (fun _ => none) "/tmp/ida_ipc_4"
        ⟨.ok, true, [.chunk []]⟩ "idb://open" = (false, "No response received")) :=
  ⟨C6_send_open_link_contract.2.1 ⟨some "error", some "bad uri", none, none, false⟩
     (by decide),
   C6_send_open_link_contract.2.2.2.2 (fun _ => none) "/tmp/ida_ipc_4"
     ⟨.ok, true, [.chunk []]⟩ "idb://open" rfl rfl rfl⟩

theorem recvAccum_chunks (parse : List Char → Option Json) (v : Json) :
    ∀ (chunks : List (List Char)) (acc : List Char),
      chunks ≠ [] →
      (∀ c ∈ chunks, c ≠ []) →
      (∀ p : List Char, p <+: (acc ++ chunks.flatten) → p ≠ acc ++ chunks.flatten →
        parse p = none) →
      parse (acc ++ chunks.flatten) = some v →
      recvAccum parse (chunks.map RecvEvent.chunk ++ [RecvEvent.chunk []]) acc
        = (some v, acc ++ chunks.flatten) := by
  intro chunks
  induction chunks with
  | nil => intro acc h _ _ _; exact absurd rfl h
  | cons c cs ih =>
    intro acc _ hne hpre hparse
    obtain ⟨c0, ctl, rfl⟩ : ∃ c0 ctl, c = c0 :: ctl := by
      cases c with
      | nil => exact absurd rfl (hne [] (List.mem_cons_self _ _))
      | cons a b => exact ⟨a, b, rfl⟩
    cases cs with
    | nil =>
      simp only [List.flatten_cons, List.flatten_nil, List.append_nil] at hpre hparse ⊢
      simp only [List.map_cons, List.map_nil, List.nil_append, List.cons_append, recvAccum]
      rw [hparse]
    | cons c2 cs2 =>
      have hc2 : c2 ≠ [] := hne c2 (by simp)
      have hjne : (c2 :: cs2).flatten ≠ [] := by
        cases c2 with
        | nil => exact absurd rfl hc2
        | cons a b => simp [List.flatten_cons]
      have hEq : (acc ++ (c0 :: ctl)) ++ (c2 :: cs2).flatten
          = acc ++ ((c0 :: ctl) :: c2 :: cs2).flatten := by
        simp [List.flatten_cons, List.append_assoc]
      have hacc2pre : (acc ++ (c0 :: ctl)) <+: acc ++ ((c0 :: ctl) :: c2 :: cs2).flatten :=
        ⟨(c2 :: cs2).flatten, hEq⟩
      have hacc2ne : acc ++ (c0 :: ctl) ≠ acc ++ ((c0 :: ctl) :: c2 :: cs2).flatten := by
        intro h
        have h2 := congrArg List.length h
        rw [List.length_append, List.length_append, List.flatten_cons,
          List.length_append] at h2
        have h3 : (c2 :: cs2).flatten.length = 0 := by omega
        exact hjne (List.length_eq_zero.mp h3)
      have hnone : parse (acc ++ (c0 :: ctl)) = none := hpre _ hacc2pre hacc2ne
      simp only [List.map_cons, List.cons_append, recvAccum]
      rw [hnone]
      have hrec := ih (acc ++ (c0 :: ctl)) (by simp)
        (fun x hx => hne x (List.mem_cons_of_mem _ hx))
        (by rw [hEq]; exact hpre)
        (by rw [hEq]; exact hparse)
      rw [hEq] at hrec
      simpa using hrec

/-- C4 (amended): the unix exchange accumulates received chunks and
returns the parse of any well-formed response that is fully delivered
before close, regardless of length; the Windows exchange performs a
single read of at most 4096 bytes, so it returns the parse exactly of
responses whose first 4096 bytes parse - a well-formed response longer
than 4096 bytes fails with a protocol error there. -/
theorem C4_exchange_returns_parse :
    (∀ (parse : List Char → Option Json) socket_path (env : UnixEnv) command
        (chunks : List (List Char)) (v : Json),
      env.connectRes = .ok → env.sendOk = true →
      env.recvs = chunks.map RecvEvent.chunk ++ [RecvEvent.chunk []] →
      chunks ≠ [] → (∀ c ∈ chunks, c ≠ []) →
      (∀ p : List Char, p <+: chunks.flatten → p ≠ chunks.flatten → parse p = none) →
      parse chunks.flatten = some v →
      (send_command_unix parse socket_path env command).result = .ok v)
    ∧ (∀ (parse : List Char → Option Json) pipe_path (env : WinEnv) command,
      env.openOk = true → env.writeOk = true → env.readOk = true →
      env.response ≠ [] →
      send_command_windows parse pipe_path env command
        = (match parse (env.response.take (min env.response.length 4096)) with
           | some v => .ok v
           | none => .error (.ipc ⟨.protocol, "Invalid JSON response"⟩)))
    ∧ (∀ (parse : List Char → Option Json) pipe_path (env : WinEnv) command (v : Json),
      env.openOk = true → env.writeOk = true → env.readOk = true →
      env.response ≠ [] → env.response.length ≤ 4096 →
      parse env.response = some v →
      send_command_windows parse pipe_path env command = .ok v) := by
  refine ⟨?_, ?_, ?_⟩
  · intro parse socket_path env command chunks v h1 h2 h3 hne0 hne hpre hparse
    obtain ⟨cr, so, rv⟩ := env
    cases h1
    cases h2
    cases h3
    have hacc := recvAccum_chunks parse v chunks [] hne0 hne
      (by simpa using hpre) (by simpa using hparse)
    simp only [List.nil_append] at hacc
    simp [send_command_unix, hacc]
  · intro parse pipe_path env command h1 h2 h3 hne
    obtain ⟨o, w, r, resp⟩ := env
    cases h1
    cases h2
    cases h3
    have hpos : 0 < min resp.length 4096 :=
      lt_min_iff.mpr ⟨List.length_pos.mpr hne, by norm_num⟩
    simp only [send_command_windows, Bool.not_true, Bool.false_eq_true, if_false,
      hpos, decide_eq_true_eq, Bool.true_and, decide_eq_true hpos, if_true]
  · intro parse pipe_path env command v h1 h2 h3 hne hlen hp
    obtain ⟨o, w, r, resp⟩ := env
    cases h1
    cases h2
    cases h3
    have hpos : 0 < min resp.length 4096 :=
      lt_min_iff.mpr ⟨List.length_pos.mpr hne, by norm_num⟩
    have hmin : min resp.length 4096 = resp.length := min_eq_left hlen
    simp only [send_command_windows, Bool.not_true, Bool.false_eq_true, if_false,
      decide_eq_true hpos, Bool.true_and, if_true, hmin, List.take_length, hp]
    simp [decide_eq_true (List.length_pos.mpr hne)]

/-- C4 counterexample: a well-formed JSON response of 5002 bytes (a
quoted 5000-character string literal) parses as JSON, but the Windows
exchange reads a single 4096-byte block, and the truncated prefix is not
valid JSON, so `_send_command_windows` raises `IPCProtocolError` instead
of returning the parse. -/
theorem win_exchange_parse_failure (parse : List Char → Option Json)
    (pipe_path : String) (resp : List Char) (command : Request)
    (hpos : 0 < min resp.length 4096)
    (hnone : parse (resp.take (min resp.length 4096)) = none) :
    send_command_windows parse pipe_path ⟨true, true, true, resp⟩ command
      = .error (.ipc ⟨.protocol, "Invalid JSON response"⟩) := by
  simp only [send_command_windows, Bool.not_true, Bool.false_eq_true, if_false,
    decide_eq_true hpos, Bool.true_and, if_true, hnone]

theorem C4_counterexample :
    parseStringLit bigLit = some (Json.nonObj (String.mk bigBody))
    ∧ 4096 < bigLit.length
    ∧ send_command_windows parseStringLit "pipe-ex" ⟨true, true, true, bigLit⟩
        ⟨"get_info", none⟩
        = .error (.ipc ⟨.protocol, "Invalid JSON response"⟩) := by
  have hmin : min bigLit.length 4096 = 4096 := by
    rw [bigLit_length]
    omega
  refine ⟨parse_bigLit, ?_, ?_⟩
  · rw [bigLit_length]
    norm_num
  · have hnone : parseStringLit (bigLit.take (min bigLit.length 4096)) = none := by
      rw [hmin]
      exact parse_bigLit_take
    exact win_exchange_parse_failure parseStringLit "pipe-ex" bigLit ⟨"get_info", none⟩
      (by rw [hmin]; norm_num) hnone

theorem C4_witness :
    ((send_command_unix parseStringLit "/tmp/ida_ipc_6"
        ⟨.ok, true, [.chunk [dquoteChar, 'a'], .chunk [dquoteChar], .chunk []]⟩
        ⟨"get_info", none⟩).result = .ok (Json.nonObj (String.mk ['a'])))
    ∧ (send_command_windows parseStringLit "p1"
        ⟨true, true, true, [dquoteChar, 'x', dquoteChar]⟩ ⟨"get_info", none⟩
        = (match parseStringLit (([dquoteChar, 'x', dquoteChar] : List Char).take
              (min ([dquoteChar, 'x', dquoteChar] : List Char).length 4096)) with
           | some v => .ok v
           | none => .error (.ipc ⟨.protocol, "Invalid JSON response"⟩)))
    ∧ (send_command_windows parseStringLit "p2"
        ⟨true, true, true, [dquoteChar, 'x', dquoteChar]⟩ ⟨"get_info", none⟩
        = .ok (Json.nonObj (String.mk ['x']))) := by
  refine ⟨?_, ?_, ?_⟩
  · exact C4_exchange_returns_parse.1 parseStringLit "/tmp/ida_ipc_6" _ _
      [[dquoteChar, 'a'], [dquoteChar]] _ rfl rfl rfl (by decide) (by decide)
      (by
        intro p hp hpe
        have hall : ∀ q ∈ ([dquoteChar, 'a', dquoteChar] : List Char).inits,
            q ≠ [dquoteChar, 'a', dquoteChar] → parseStringLit q = none := by decide
        exact hall p ((List.mem_inits _ _).mpr hp) hpe)
      (by decide)
  · exact C4_exchange_returns_parse.2.1 parseStringLit "p1" _ _ rfl rfl rfl (by decide)
  · exact C4_exchange_returns_parse.2.2 parseStringLit "p2" _ _
      (Json.nonObj (String.mk ['x'])) rfl rfl rfl (by decide) (by decide) (by decide)
